import Mathlib

/-!
Verification of the sveltekit-exec-adapter core against its specification.

The TypeScript sources are shallowly embedded as executable Lean
definitions:
* `Validation` models `src/packages/sveltekit/src/utils/validation.ts`
  (the asset validation engine);
* `AssetsGen` models `src/packages/sveltekit/src/utils/assets.ts`
  (symbolic-name generation via an md5 path hash, and manifest
  generation);
* `Reporter` models `src/packages/sveltekit/src/utils/reporter.ts`
  (weighted build progress);
* `Server` models the runtime server wrapper (static file resolution,
  request routing, and the graceful-shutdown coordinator).

Filesystem access and the JS `decodeURIComponent` builtin are external
collaborators; they are modelled as explicit parameters (an abstract
`FS` record) or as a faithful executable model of the fragment the code
exercises.
-/

namespace StrAux

/-- ASCII lower-casing of a character, as JS `toLowerCase` acts on the
ASCII range used by file extensions and names. -/
def lowerChar (c : Char) : Char :=
  if 'A' ≤ c ∧ c ≤ 'Z' then Char.ofNat (c.toNat + 32) else c

/-- ASCII lower-casing of a string. -/
def lowerStr (s : String) : String := String.mk (s.data.map lowerChar)

/-- Does list `l` start with list `p`? -/
def startsWithList : List Char → List Char → Bool
  | _, [] => true
  | [], _ :: _ => false
  | c :: cs, p :: ps => c = p && startsWithList cs ps

/-- Does `l` contain `p` as a contiguous sublist?  Models JS
`String.prototype.includes`. -/
def containsList (l p : List Char) : Bool :=
  match l with
  | [] => startsWithList [] p
  | _ :: cs => startsWithList l p || containsList cs p

/-- JS `haystack.includes(needle)`. -/
def containsStr (hay needle : String) : Bool := containsList hay.data needle.data

/-- JS `s.endsWith(t)`. -/
def endsWithStr (s t : String) : Bool := startsWithList s.data.reverse t.data.reverse

/-- Index of the last occurrence of `c` in `l`, if any. -/
def lastIdxOf (l : List Char) (c : Char) : Option Nat :=
  match l with
  | [] => none
  | x :: xs =>
    match lastIdxOf xs c with
    | some i => some (i + 1)
    | none => if x = c then some 0 else none

/-- Split a list of characters at every occurrence of `sep`
(the pieces do not contain `sep`). -/
def splitOnChar (sep : Char) : List Char → List (List Char)
  | [] => [[]]
  | c :: cs =>
    let rest := splitOnChar sep cs
    if c = sep then [] :: rest
    else
      match rest with
      | [] => [[c]]
      | piece :: pieces => (c :: piece) :: pieces

/-- Interleave `sep` between the pieces and concatenate. -/
def joinWith (sep : List Char) : List (List Char) → List Char
  | [] => []
  | [p] => p
  | p :: ps => p ++ sep ++ joinWith sep ps

/-- Join over raw character lists (String.intercalate semantics), used to model JS
`Array.prototype.join`. -/
def joinStrings (sep : String) (parts : List String) : String :=
  String.mk (joinWith sep.data (parts.map String.data))

end StrAux

namespace NodePath

open StrAux

/-- POSIX `path.basename`: the part after the last slash, with trailing
slashes trimmed first. -/
def basename (p : String) : String :=
  let cs := (p.data.reverse.dropWhile (· = '/')).reverse
  match lastIdxOf cs '/' with
  | none => String.mk cs
  | some i => String.mk (cs.drop (i + 1))

/-- POSIX `path.extname`: the suffix of the basename from its last dot,
or `""` when the basename has no dot or starts with its only dot.
(Basenames consisting solely of dots are not produced by discovery and
are not modelled exactly.) -/
def extname (p : String) : String :=
  let b := (basename p).data
  match lastIdxOf b '.' with
  | none => ""
  | some 0 => ""
  | some i => String.mk (b.drop i)

/-- Node `path.parse(p).name`: the basename with the `extname` suffix
removed. -/
def parseName (p : String) : String :=
  let b := (basename p).data
  String.mk (b.take (b.length - (extname p).data.length))

/-- POSIX `path.normalize`: split on slashes, drop empty and `.`
segments, resolve `..` against preceding segments (absolute paths drop
unmatched `..`), and rejoin. -/
def normalize (p : String) : String :=
  let isAbs := startsWithList p.data ['/']
  let segs := (splitOnChar '/' p.data).filter (fun s => s ≠ [] ∧ s ≠ ['.'])
  let out := segs.foldl (fun acc seg =>
    if seg = ['.', '.'] then
      match acc.reverse with
      | [] => if isAbs then [] else [seg]
      | last :: _ => if last = ['.', '.'] then acc ++ [seg] else acc.dropLast
    else acc ++ [seg]) []
  let body := joinWith ['/'] out
  let cs := if isAbs then '/' :: body else body
  if cs = [] then "." else String.mk cs

end NodePath

namespace Validation

/-- Record `ClientAsset` from `assets.ts`; `size` is optional there, and JS
treats both a missing and a zero size as falsy. -/
structure ClientAsset where
  filePath : String
  routePath : String
  varName : String
  isPrerendered : Bool := false
  size : Option Nat := none
deriving Repr, DecidableEq

/-- JS falsiness of the optional numeric `size` field
(`!updatedAsset.size`). -/
def jsFalsySize : Option Nat → Bool
  | none => true
  | some 0 => true
  | some _ => false

/-- Result of a successful `stat` call. -/
structure FileStats where
  size : Nat
  isFile : Bool
deriving Repr, DecidableEq

/-- Abstract filesystem collaborator: `access` models the
existence/readability probe of `fileExists`, `stat` models
`getFileStats` (`none` = the call threw). -/
structure FS where
  access : String → Bool
  stat : String → Option FileStats

/-- Record `ValidationOptions` from `validation.ts`. -/
structure ValidationOptions where
  maxAssetSize : Nat
  maxTotalSize : Nat
  warnThreshold : Nat
  allowedExtensions : Option (List String) := none
  blockedExtensions : List String
  warnExtensions : List String

/-- Constant `DEFAULT_VALIDATION_OPTIONS` from `validation.ts`. -/
def DEFAULT_VALIDATION_OPTIONS : ValidationOptions where
  maxAssetSize := 50 * 1024 * 1024
  maxTotalSize := 500 * 1024 * 1024
  warnThreshold := 10 * 1024 * 1024
  blockedExtensions := [".exe", ".dll", ".so", ".dylib", ".app", ".deb", ".rpm"]
  warnExtensions := [".zip", ".tar", ".gz", ".rar", ".7z", ".iso", ".dmg"]

/-- Unit index chosen by the `while (size >= 1024 && unitIndex < 3)`
loop of `formatBytes`. -/
def formatUnitIdx (bytes : Nat) : Nat :=
  if bytes ≥ 1024 ^ 3 then 3
  else if bytes ≥ 1024 ^ 2 then 2
  else if bytes ≥ 1024 then 1
  else 0

/-- Function `formatBytes` from `validation.ts`; `toFixed(1)` is modelled as
round-half-up of the exact quotient to one decimal digit. -/
def formatBytes (bytes : Nat) : String :=
  let units := ["B", "KB", "MB", "GB"]
  let k := formatUnitIdx bytes
  let tenths := (20 * bytes + 1024 ^ k) / (2 * 1024 ^ k)
  toString (tenths / 10) ++ "." ++ toString (tenths % 10) ++ " " ++
    (units.getD k "B")

/-- The suspicious-filename patterns of `analyzeAssetType`, all
case-insensitive. -/
def suspiciousName (fileName : String) : Bool :=
  let lower := StrAux.lowerStr fileName
  (StrAux.endsWithStr lower ".tmp" || StrAux.endsWithStr lower ".temp" ||
    StrAux.endsWithStr lower ".cache" || StrAux.endsWithStr lower ".log") ||
  lower = ".ds_store" || lower = "thumbs.db" || lower = "desktop.ini" ||
  (StrAux.endsWithStr lower ".bak" || StrAux.endsWithStr lower ".backup" ||
    StrAux.endsWithStr lower ".old")

/-- The `[<>:"|?*\x00-\x1f]` character class of `analyzeAssetType`. -/
def problematicChar (c : Char) : Bool :=
  c = '<' || c = '>' || c = ':' || c = '"' || c = '|' || c = '?' || c = '*' ||
    c.toNat ≤ 31

/-- Output of `analyzeAssetType`. -/
structure TypeAnalysis where
  warnings : List String
  errors : List String
  type : String
deriving Repr, DecidableEq

/-- Function `analyzeAssetType` from `validation.ts`: blocked/warn/allow-list
extension checks plus filename checks, in source push order. -/
def analyzeAssetType (asset : ClientAsset) (options : ValidationOptions) :
    TypeAnalysis :=
  let ext := StrAux.lowerStr (NodePath.extname asset.filePath)
  let fileName := NodePath.basename asset.filePath
  let type := if (ext.data.drop 1) = [] then "unknown" else String.mk (ext.data.drop 1)
  let errors :=
    (if options.blockedExtensions.contains ext then
      ["Blocked file type: " ++ asset.routePath ++ " (" ++ ext ++ ")"]
    else []) ++
    (match options.allowedExtensions with
      | some allowed =>
        if ¬ allowed.contains ext then
          ["File extension not allowed: " ++ asset.routePath ++ " (" ++ ext ++ ")"]
        else []
      | none => []) ++
    (if fileName.data.length > 255 then
      ["File name too long: " ++ asset.routePath ++ " (" ++
        toString fileName.data.length ++ " characters)"]
    else [])
  let warnings :=
    (if options.warnExtensions.contains ext then
      ["Potentially problematic file type: " ++ asset.routePath ++ " (" ++ ext ++ ")"]
    else []) ++
    (if suspiciousName fileName then
      ["Suspicious file detected: " ++ asset.routePath ++
        " (likely temporary/system file)"]
    else []) ++
    (if fileName.data.any problematicChar then
      ["File name contains special characters: " ++ asset.routePath]
    else [])
  ⟨warnings, errors, type⟩

/-- Output of `validateAsset`. -/
structure PerAssetValidation where
  errors : List String
  warnings : List String
  updatedAsset : ClientAsset
  type : String
deriving Repr, DecidableEq

/-- Function `validateAsset` from `validation.ts`.  The existence, readability
and regular-file checks are terminal (early return); the size and type
checks accumulate. -/
def validateAsset (fs : FS) (asset : ClientAsset) (options : ValidationOptions) :
    PerAssetValidation :=
  if ¬ fs.access asset.filePath then
    ⟨["Asset file not found: " ++ asset.filePath], [], asset, "missing"⟩
  else
    match fs.stat asset.filePath with
    | none => ⟨["Cannot read asset file: " ++ asset.filePath], [], asset, "unreadable"⟩
    | some stats =>
      if ¬ stats.isFile then
        ⟨["Asset path is not a file: " ++ asset.filePath], [], asset, "notfile"⟩
      else
        let updatedAsset :=
          if jsFalsySize asset.size then { asset with size := some stats.size }
          else asset
        let sizeErrors :=
          if stats.size > options.maxAssetSize then
            ["Asset too large: " ++ asset.routePath ++ " (" ++
              formatBytes stats.size ++ ", max: " ++
              formatBytes options.maxAssetSize ++ ")"]
          else []
        let sizeWarnings :=
          if stats.size > options.maxAssetSize then []
          else if stats.size > options.warnThreshold then
            ["Large asset detected: " ++ asset.routePath ++ " (" ++
              formatBytes stats.size ++ ")"]
          else []
        let emptyWarnings :=
          if stats.size = 0 then
            ["Empty file detected: " ++ asset.routePath]
          else []
        let ta := analyzeAssetType updatedAsset options
        ⟨sizeErrors ++ ta.errors, sizeWarnings ++ emptyWarnings ++ ta.warnings,
          updatedAsset, ta.type⟩

/-- Per-type statistics (`assetsByType` values). -/
structure TypeStats where
  count : Nat
  size : Nat
deriving Repr, DecidableEq

/-- Entry of `largeAssets`. -/
structure LargeAsset where
  path : String
  size : Nat
  type : String
deriving Repr, DecidableEq

/-- Entry of `problematicAssets`. -/
structure ProblemAsset where
  path : String
  reason : String
deriving Repr, DecidableEq

/-- Record `AssetValidationResult` from `validation.ts`; the JS `Map` becomes
an insertion-ordered association list. -/
structure AssetValidationResult where
  isValid : Bool
  errors : List String
  warnings : List String
  totalSize : Nat
  assetCount : Nat
  assetsByType : List (String × TypeStats)
  largeAssets : List LargeAsset
  problematicAssets : List ProblemAsset
deriving Repr, DecidableEq

/-- Operation `map.get(k)` on the association-list model of the JS `Map`. -/
def mapGet (m : List (String × TypeStats)) (k : String) : Option TypeStats :=
  (m.find? (fun e => e.1 = k)).map (fun e => e.2)

/-- Operation `map.set(k, v)`: update in place, else append (insertion order). -/
def mapSet (m : List (String × TypeStats)) (k : String) (v : TypeStats) :
    List (String × TypeStats) :=
  match m with
  | [] => [(k, v)]
  | e :: es => if e.1 = k then (k, v) :: es else e :: mapSet es k v

/-- Accumulator of the per-asset loop in `validateAssets`: the in-progress
result plus the `validAssets` list. -/
structure LoopAcc where
  res : AssetValidationResult
  validAssets : List ClientAsset

/-- One iteration of the per-asset loop in `validateAssets`: collect
errors/warnings; an asset with any error is recorded as problematic and
skipped, otherwise its (updated) size feeds the statistics. -/
def processAsset (fs : FS) (options : ValidationOptions) (acc : LoopAcc)
    (asset : ClientAsset) : LoopAcc :=
  let validation := validateAsset fs asset options
  let res := { acc.res with
    errors := acc.res.errors ++ validation.errors,
    warnings := acc.res.warnings ++ validation.warnings }
  if validation.errors ≠ [] then
    { acc with res := { res with
        problematicAssets := res.problematicAssets ++
          [⟨asset.routePath, StrAux.joinStrings ", " validation.errors⟩],
        isValid := false } }
  else
    let validAsset := validation.updatedAsset
    let size := validAsset.size.getD 0
    let typeStats := (mapGet res.assetsByType validation.type).getD ⟨0, 0⟩
    { res := { res with
        totalSize := res.totalSize + size,
        largeAssets :=
          if size > options.warnThreshold then
            res.largeAssets ++ [⟨validAsset.routePath, size, validation.type⟩]
          else res.largeAssets,
        assetsByType := mapSet res.assetsByType validation.type
          ⟨typeStats.count + 1, typeStats.size + size⟩ },
      validAssets := acc.validAssets ++ [validAsset] }

/-- The per-asset loop of `validateAssets` (results merged by input
index) run from the freshly initialized result record. -/
def loopResult (fs : FS) (options : ValidationOptions)
    (assets : List ClientAsset) : LoopAcc :=
  assets.foldl (processAsset fs options)
    ⟨⟨true, [], [], 0, assets.length, [], [], []⟩, []⟩

/-- The tail of `validateAssets` after the per-asset loop: the aggregate
total-size error/warning (the `0.8` factor is expressed over the
integers as `5 * totalSize > 4 * maxTotalSize`), the asset-count
warning, and the final `assetCount` update. -/
def finalizeResult (options : ValidationOptions) (acc : LoopAcc) :
    AssetValidationResult :=
  let r := acc.res
  let r :=
    if r.totalSize > options.maxTotalSize then
      { r with
        errors := r.errors ++
          ["Total asset size exceeds limit: " ++ formatBytes r.totalSize ++
            " (max: " ++ formatBytes options.maxTotalSize ++ ")"],
        isValid := false }
    else r
  let r :=
    if 5 * r.totalSize > 4 * options.maxTotalSize then
      { r with warnings := r.warnings ++
          ["Total asset size is approaching the limit: " ++
            formatBytes r.totalSize ++ " (limit: " ++
            formatBytes options.maxTotalSize ++ ")"] }
    else r
  let r :=
    if acc.validAssets.length > 1000 then
      { r with warnings := r.warnings ++
          ["Large number of assets detected: " ++
            toString acc.validAssets.length ++
            " assets may increase build time"] }
    else r
  { r with assetCount := acc.validAssets.length }

/-- Function `validateAssets` from `validation.ts`: the per-asset loop
followed by the aggregate checks. -/
def validateAssets (fs : FS) (assets : List ClientAsset)
    (options : ValidationOptions) : AssetValidationResult :=
  finalizeResult options (loopResult fs options assets)

/-- Size an error-free asset contributes to the statistics
(`validAsset.size || 0` on the updated asset). -/
def effectiveSize (fs : FS) (options : ValidationOptions)
    (a : ClientAsset) : Nat :=
  (validateAsset fs a options).updatedAsset.size.getD 0

end Validation

namespace MD5

/-- Reduction modulo 2^32 of machine-word arithmetic. -/
def w32 (x : Nat) : Nat := x % 4294967296

/-- Left rotation of a 32-bit word by `c` places. -/
def leftrot (x c : Nat) : Nat := w32 ((x <<< c) ||| (x >>> (32 - c)))

/-- Bitwise complement within 32 bits. -/
def not32 (x : Nat) : Nat := 0xFFFFFFFF ^^^ x

/-- The 64 sine-derived round constants of MD5. -/
def K : List Nat := [
  0xd76aa478, 0xe8c7b756, 0x242070db, 0xc1bdceee, 0xf57c0faf, 0x4787c62a,
  0xa8304613, 0xfd469501, 0x698098d8, 0x8b44f7af, 0xffff5bb1, 0x895cd7be,
  0x6b901122, 0xfd987193, 0xa679438e, 0x49b40821, 0xf61e2562, 0xc040b340,
  0x265e5a51, 0xe9b6c7aa, 0xd62f105d, 0x02441453, 0xd8a1e681, 0xe7d3fbc8,
  0x21e1cde6, 0xc33707d6, 0xf4d50d87, 0x455a14ed, 0xa9e3e905, 0xfcefa3f8,
  0x676f02d9, 0x8d2a4c8a, 0xfffa3942, 0x8771f681, 0x6d9d6122, 0xfde5380c,
  0xa4beea44, 0x4bdecfa9, 0xf6bb4b60, 0xbebfbc70, 0x289b7ec6, 0xeaa127fa,
  0xd4ef3085, 0x04881d05, 0xd9d4d039, 0xe6db99e5, 0x1fa27cf8, 0xc4ac5665,
  0xf4292244, 0x432aff97, 0xab9423a7, 0xfc93a039, 0x655b59c3, 0x8f0ccc92,
  0xffeff47d, 0x85845dd1, 0x6fa87e4f, 0xfe2ce6e0, 0xa3014314, 0x4e0811a1,
  0xf7537e82, 0xbd3af235, 0x2ad7d2bb, 0xeb86d391]

/-- The per-round left-rotation amounts of MD5. -/
def S : List Nat := [
  7, 12, 17, 22, 7, 12, 17, 22, 7, 12, 17, 22, 7, 12, 17, 22,
  5, 9, 14, 20, 5, 9, 14, 20, 5, 9, 14, 20, 5, 9, 14, 20,
  4, 11, 16, 23, 4, 11, 16, 23, 4, 11, 16, 23, 4, 11, 16, 23,
  6, 10, 15, 21, 6, 10, 15, 21, 6, 10, 15, 21, 6, 10, 15, 21]

/-- MD5 padding: a `0x80` byte, zeros to 56 mod 64, then the bit length
as eight little-endian bytes. -/
def padMessage (msg : List Nat) : List Nat :=
  let len := msg.length
  msg ++ [128] ++ List.replicate ((119 - len % 64) % 64) 0 ++
    (List.range 8).map (fun i => (8 * len) / 256 ^ i % 256)

/-- Split a byte list whose length is a multiple of 64 into 64-byte
blocks (a trailing incomplete chunk is dropped; padding rules it out). -/
def toBlocks (bytes : List Nat) : List (List Nat) :=
  (bytes.foldl (fun (st : List (List Nat) × List Nat) b =>
    let cur := st.2 ++ [b]
    if cur.length = 64 then (st.1 ++ [cur], []) else (st.1, cur)) ([], [])).1

/-- Decode a 64-byte block into 16 little-endian 32-bit words. -/
def toWords (block : List Nat) : List Nat :=
  (List.range 16).map (fun i =>
    block.getD (4 * i) 0 + 256 * block.getD (4 * i + 1) 0 +
      65536 * block.getD (4 * i + 2) 0 + 16777216 * block.getD (4 * i + 3) 0)

/-- One of the 64 MD5 rounds on state `(a, b, c, d)`. -/
def roundStep (M : List Nat) (st : Nat × Nat × Nat × Nat) (i : Nat) :
    Nat × Nat × Nat × Nat :=
  let (a, b, c, d) := st
  let fg : Nat × Nat :=
    if i < 16 then ((b &&& c) ||| (not32 b &&& d), i)
    else if i < 32 then ((d &&& b) ||| (not32 d &&& c), (5 * i + 1) % 16)
    else if i < 48 then (b ^^^ c ^^^ d, (3 * i + 5) % 16)
    else (c ^^^ (b ||| not32 d), (7 * i) % 16)
  let f := w32 (fg.1 + a + K.getD i 0 + M.getD fg.2 0)
  (d, w32 (b + leftrot f (S.getD i 0)), b, c)

/-- Process one 64-byte block, updating the running state. -/
def processBlock (st : Nat × Nat × Nat × Nat) (block : List Nat) :
    Nat × Nat × Nat × Nat :=
  let M := toWords block
  let r := (List.range 64).foldl (roundStep M) st
  (w32 (st.1 + r.1), w32 (st.2.1 + r.2.1), w32 (st.2.2.1 + r.2.2.1),
    w32 (st.2.2.2 + r.2.2.2))

/-- Little-endian byte decomposition of a 32-bit word. -/
def wordLE (w : Nat) : List Nat :=
  [w % 256, w / 256 % 256, w / 65536 % 256, w / 16777216 % 256]

/-- Digest serialization of a final MD5 state. -/
def digestOfState (st : Nat × Nat × Nat × Nat) : List Nat :=
  wordLE st.1 ++ wordLE st.2.1 ++ wordLE st.2.2.1 ++ wordLE st.2.2.2

/-- The 16-byte MD5 digest of a byte list. -/
def md5Bytes (msg : List Nat) : List Nat :=
  digestOfState ((toBlocks (padMessage msg)).foldl processBlock
    (0x67452301, 0xefcdab89, 0x98badcfe, 0x10325476))

/-- Lower-case hexadecimal digit. -/
def hexDigit (n : Nat) : Char :=
  if n < 10 then Char.ofNat (48 + n) else Char.ofNat (87 + n)

/-- Two-character lower-case hex rendering of a byte. -/
def byteHex (b : Nat) : List Char := [hexDigit (b / 16), hexDigit (b % 16)]

/-- UTF-8 encoding of a code point. -/
def utf8Char (c : Nat) : List Nat :=
  if c < 0x80 then [c]
  else if c < 0x800 then [0xC0 + c / 0x40, 0x80 + c % 0x40]
  else if c < 0x10000 then
    [0xE0 + c / 0x1000, 0x80 + c / 0x40 % 0x40, 0x80 + c % 0x40]
  else
    [0xF0 + c / 0x40000, 0x80 + c / 0x1000 % 0x40, 0x80 + c / 0x40 % 0x40,
      0x80 + c % 0x40]

/-- UTF-8 bytes of a string, as `createHash("md5").update(s)` consumes
them. -/
def strBytes (s : String) : List Nat := (s.data.map (fun c => utf8Char c.toNat)).flatten

/-- Lower-case 32-character hex MD5 digest of a string
(`createHash("md5").update(s).digest("hex")`). -/
def md5Hex (s : String) : String :=
  String.mk ((md5Bytes (strBytes s)).map byteHex).flatten

end MD5

namespace AssetsGen

open Validation (ClientAsset)

/-- ASCII upper-casing of a character (JS `toUpperCase` on the ASCII
extension alphabet). -/
def upperChar (c : Char) : Char :=
  if 'a' ≤ c ∧ c ≤ 'z' then Char.ofNat (c.toNat - 32) else c

/-- Is `c` in the identifier alphabet `[a-zA-Z0-9]`? -/
def isAlnum (c : Char) : Bool :=
  ('a' ≤ c ∧ c ≤ 'z') ∨ ('A' ≤ c ∧ c ≤ 'Z') ∨ ('0' ≤ c ∧ c ≤ '9')

/-- The `replace(/[^a-zA-Z0-9]/g, "_")` step of `generateVarName`. -/
def sanitizeChar (c : Char) : Char := if isAlnum c then c else '_'

/-- The `replace(/_+/g, "_")` step: collapse runs of underscores. -/
def collapseUnderscores (cs : List Char) : List Char :=
  (cs.foldl (fun (acc : List Char × Bool) c =>
    if c = '_' then (if acc.2 then acc else (acc.1 ++ ['_'], true))
    else (acc.1 ++ [c], false)) ([], false)).1

/-- The `replace(/^_|_$/g, "")` step: drop one leading and one trailing
underscore (after collapsing, at most one of each exists). -/
def stripEdgeUnderscores (cs : List Char) : List Char :=
  let cs := if StrAux.startsWithList cs ['_'] then cs.drop 1 else cs
  if cs.getLast? = some '_' then cs.dropLast else cs

/-- JS `ext.replace(".", "")`: remove the first dot, if any. -/
def removeFirstDot : List Char → List Char
  | [] => []
  | c :: cs => if c = '.' then cs else c :: removeFirstDot cs

/-- Normalized form of the path hashed by `generateVarName`:
`normalize(filePath).replace(/\\/g, "/")`. -/
def normalizedPath (filePath : String) : String :=
  String.mk ((NodePath.normalize filePath).data.map
    (fun c => if c = '\\' then '/' else c))

/-- The short path hash of `generateVarName`:
`createHash("md5").update(normalizedPath).digest("hex").slice(0, 4)`. -/
def pathHash (filePath : String) : String :=
  String.mk ((MD5.md5Hex (normalizedPath filePath)).data.take 4)

/-- Everything of `generateVarName` before the path hash: the sanitized
basename (prefixed with `asset_` when it starts with a digit, `asset`
when empty) and the upper-cased extension tag, each followed by an
underscore. -/
def varNameBase (filePath : String) : String :=
  let name := NodePath.parseName filePath
  let ext := NodePath.extname filePath
  let cleaned := stripEdgeUnderscores (collapseUnderscores (name.data.map sanitizeChar))
  let cleanName :=
    match cleaned with
    | c :: _ =>
      if '0' ≤ c ∧ c ≤ '9' then "asset_" ++ String.mk cleaned
      else String.mk cleaned
    | [] => ""
  let cleanName := if cleanName = "" then "asset" else cleanName
  let extSuffix := String.mk ((removeFirstDot ext.data).map upperChar)
  cleanName ++ "_" ++ extSuffix ++ "_"

/-- Function `generateVarName` from `assets.ts`:
`` `${cleanName}_${extSuffix}_${pathHash}` ``. -/
def generateVarName (filePath : String) : String :=
  varNameBase filePath ++ pathHash filePath

/-- Module path of the `import ... with type file` statement generated
for an asset. -/
def relativePathOf (asset : ClientAsset) : String :=
  (if asset.isPrerendered then "../prerendered" else "../client") ++ asset.routePath

/-- Function `generateAssetImports` from `assets.ts`: the generated
`assets.generated.ts` module text (imports, ordered route map, and the
export surface retaining every payload), built exactly as the template
literal concatenates it. -/
def generateAssetImports (assets : List ClientAsset) : String :=
  let imports := StrAux.joinStrings "\n" (assets.map (fun asset =>
    "import " ++ asset.varName ++ " from \"" ++ relativePathOf asset ++
      "\" with \x7b type: \"file\" \x7d;"))
  let mapEntries := StrAux.joinStrings ",\n" (assets.map (fun asset =>
    "  [\"" ++ asset.routePath ++ "\", " ++ asset.varName ++ "]"))
  let exportEntries := StrAux.joinStrings ",\n" (assets.map (fun asset =>
    "  " ++ asset.varName))
  "// Auto-generated asset imports\n// @ts-nocheck\n  " ++ imports ++
    "\n\n  export const assetMap = new Map([\n  " ++ mapEntries ++
    "\n  ]);\n\n  export const assets = \x7b\n  " ++ exportEntries ++
    "\n  \x7d;\n  "

end AssetsGen

namespace Adapt

open Validation

/-- The asset-embedding branch of step 5 of `adapt` (`build.ts` /
`index.ts`), with `embedStatic` on: validation runs unless skipped and
any validation error aborts the build (modelled as `none`) before the
manifest module is generated; otherwise `generateAssetImports` runs on
the discovered list. -/
def adaptAssetsStep (fs : FS) (assets : List ClientAsset)
    (options : ValidationOptions) (skipValidation : Bool) : Option String :=
  if skipValidation then some (AssetsGen.generateAssetImports assets)
  else if (validateAssets fs assets options).isValid then
    some (AssetsGen.generateAssetImports assets)
  else none

end Adapt

namespace Reporter

/-- Record `StepInfo` from `reporter.ts`. -/
structure StepInfo where
  name : String
  description : String
  weight : Nat
deriving Repr, DecidableEq

/-- The fixed step table of `BuildReporter` with its static weights. -/
def steps : List StepInfo := [
  ⟨"cleanup", "Cleaning up directories", 1⟩,
  ⟨"sveltekit", "Building SvelteKit application", 3⟩,
  ⟨"server", "Copying server wrapper", 1⟩,
  ⟨"manifest", "Generating manifest", 1⟩,
  ⟨"assets", "Processing assets", 2⟩,
  ⟨"compile", "Compiling to executable", 4⟩,
  ⟨"finalize", "Finalizing build", 1⟩]

/-- The progress-relevant part of `BuildMetrics`: the key set of the
`stepTimes` map (start instants themselves only feed duration logging)
and the completed-step counter. -/
structure BuildMetrics where
  stepTimes : List String := []
  currentStep : String := ""
  totalSteps : Nat := steps.length
  completedSteps : Nat := 0
deriving Repr, DecidableEq

/-- The metrics as initialized in the `BuildReporter` constructor. -/
def initialMetrics : BuildMetrics := {}

/-- Method `startStep`: unknown steps only log a warning; known steps
become current and get a start time recorded (`Map.set` keeps one entry
per key). -/
def startStep (m : BuildMetrics) (stepName : String) : BuildMetrics :=
  if steps.any (fun s => s.name = stepName) then
    { m with
      currentStep := stepName,
      stepTimes :=
        if m.stepTimes.contains stepName then m.stepTimes
        else m.stepTimes ++ [stepName] }
  else m

/-- Method `completeStep`: a step without a recorded start time is
ignored; otherwise the completed-step counter advances (durations only
feed logging). -/
def completeStep (m : BuildMetrics) (stepName : String) : BuildMetrics :=
  if m.stepTimes.contains stepName then
    { m with completedSteps := m.completedSteps + 1 }
  else m

/-- Position of a step name in the fixed table (`findIndex`; every name
this is called on comes from the table itself, so the JS `-1` case does
not arise). -/
def stepIdx (stepName : String) : Nat :=
  steps.findIdx (fun s => s.name = stepName)

/-- Method `calculateProgress`: the weighted live percentage
`Math.round(100 * completedWeight / totalWeight)`, where a step counts
as completed when it has started and the completed-step counter exceeds
its table index.  `Math.round` on the nonnegative quotient is
`(200 * cw + tw) / (2 * tw)` over the integers. -/
def calculateProgress (m : BuildMetrics) : Nat :=
  if m.totalSteps = 0 then 0
  else
    let acc := steps.foldl (fun (acc : Nat × Nat) step =>
      ((if m.stepTimes.contains step.name ∧ m.completedSteps > stepIdx step.name
        then acc.1 + step.weight else acc.1), acc.2 + step.weight)) (0, 0)
    (200 * acc.1 + acc.2) / (2 * acc.2)

end Reporter

namespace Server

/-- A file the static server can hand back: an embedded payload from the
generated asset map, or an on-disk file under one of the external static
directories next to the binary. -/
inductive FileRef where
  | embedded (payload : String)
  | ondisk (dir : String) (path : String)
deriving Repr, DecidableEq

/-- Numeric value of a hexadecimal digit character. -/
def hexVal (c : Char) : Option Nat :=
  if '0' ≤ c ∧ c ≤ '9' then some (c.toNat - 48)
  else if 'a' ≤ c ∧ c ≤ 'f' then some (c.toNat - 87)
  else if 'A' ≤ c ∧ c ≤ 'F' then some (c.toNat - 55)
  else none

/-- Percent-decoding on characters; `none` models a thrown `URIError`.
This is the ASCII fragment of `decodeURIComponent`: malformed escapes
fail as in JS, and escapes of non-ASCII bytes (which the builtin runs
through UTF-8 decoding) are conservatively treated as failures too. -/
def percentDecodeList : List Char → Option (List Char)
  | [] => some []
  | '%' :: [] => none
  | '%' :: [_] => none
  | '%' :: h :: l :: rest =>
    match hexVal h, hexVal l, percentDecodeList rest with
    | some a, some b, some tail =>
      if 16 * a + b < 128 then some (Char.ofNat (16 * a + b) :: tail) else none
    | _, _, _ => none
  | c :: rest =>
    match percentDecodeList rest with
    | some tail => some (c :: tail)
    | none => none

/-- Model of the JS `decodeURIComponent` builtin on request pathnames
(`none` = the builtin throws). -/
def decodeURIComponentM (s : String) : Option String :=
  (percentDecodeList s.data).map String.mk

/-- The fixed on-disk fallback directories probed by `getFile`. -/
def staticBuildDirs : List String := ["client", "prerendered"]

/-- The post-decoding body of `getFile`: the embedded asset map first
(an insertion-ordered association list models the generated JS `Map`),
then the on-disk directories next to the binary in order.  The abstract
`diskExists dir path` collaborator models
`file(path.join(binaryDir, dir, path)).exists()`. -/
def resolveDecoded (assetMap : List (String × String))
    (diskExists : String → String → Bool) (decodedPathname : String) :
    Option FileRef :=
  match assetMap.find? (fun e => e.1 = decodedPathname) with
  | some e => some (.embedded e.2)
  | none =>
    match staticBuildDirs.find? (fun dir => diskExists dir decodedPathname) with
    | some dir => some (.ondisk dir decodedPathname)
    | none => none

/-- Function `getFile` from the server wrapper: decode the pathname
(falling back to the raw pathname when decoding throws), reject decoded
pathnames containing a traversal marker, then resolve against the
embedded map and the on-disk directories. -/
def getFile (assetMap : List (String × String))
    (diskExists : String → String → Bool) (pathname : String) :
    Option FileRef :=
  match decodeURIComponentM pathname with
  | some decodedPathname =>
    if StrAux.containsStr decodedPathname "../" ||
        StrAux.containsStr decodedPathname "..\\" then none
    else resolveDecoded assetMap diskExists decodedPathname
  | none => resolveDecoded assetMap diskExists pathname

/-- The static document path a prerendered route maps to: the root path
maps to the index document, every other route gets the `.html` suffix. -/
def htmlPathFor (pathname : String) : String :=
  if pathname = "/" then "/index.html" else pathname ++ ".html"

/-- Method `staticServer.respond`, reduced to which file (if any) is
served for a pathname: a known prerendered route is first tried via its
static document, then the pathname itself is tried as an asset. -/
def staticRespond (prerenderedRoutes : List String)
    (assetMap : List (String × String))
    (diskExists : String → String → Bool) (pathname : String) :
    Option FileRef :=
  let fromPrerendered :=
    if prerenderedRoutes.contains pathname then
      getFile assetMap diskExists (htmlPathFor pathname)
    else none
  match fromPrerendered with
  | some f => some f
  | none => getFile assetMap diskExists pathname

/-- Outcome of the `Bun.serve` fetch handler for a request: a static
response, or delegation to the dynamic SvelteKit server. -/
inductive ServeOutcome where
  | staticFile (f : FileRef)
  | dynamic
deriving Repr, DecidableEq

/-- The routing decision of the fetch handler: the static server first,
the dynamic SvelteKit handler only when it found nothing. -/
def fetchRoute (prerenderedRoutes : List String)
    (assetMap : List (String × String))
    (diskExists : String → String → Bool) (pathname : String) :
    ServeOutcome :=
  match staticRespond prerenderedRoutes assetMap diskExists pathname with
  | some f => .staticFile f
  | none => .dynamic

/-- Grace period of the shutdown coordinator, in seconds
(`const shutdownTimeout = 10`). -/
def shutdownTimeoutSecs : Nat := 10

/-- Idle-shutdown delay, in seconds (`const idleTimeout = 30`). -/
def idleTimeoutSecs : Nat := 30

/-- Observable state of the shutdown coordinator: the live request
counter, which timers are pending (`shutdownPending` models
`shutdownTimeoutId !== null`, `idlePending` models
`idleTimeoutId !== null`, `checkPending` a scheduled 100 ms re-check of
`checkForGracefulExit`), whether `server.stop()` ran, the recorded
shutdown reason, and the process exit code once `process.exit` ran. -/
structure ServerState where
  activeRequests : Nat := 0
  shutdownPending : Bool := false
  idlePending : Bool := false
  checkPending : Bool := false
  serverStopped : Bool := false
  shutdownReason : Option String := none
  exited : Option Nat := none
deriving Repr, DecidableEq

/-- Function `checkForGracefulExit`: with no active requests, clear the
timers and exit successfully; otherwise re-check after the 100 ms
polling interval. -/
def checkForGracefulExit (s : ServerState) : ServerState :=
  if s.activeRequests = 0 then
    { s with exited := some 0, shutdownPending := false, idlePending := false }
  else { s with checkPending := true }

/-- Function `gracefulShutdown`: a second invocation while shutdown is
in progress only logs; the first stops the server, arms the grace-period
timer, records the reason, and immediately checks for exit. -/
def gracefulShutdown (reason : String) (s : ServerState) : ServerState :=
  if s.shutdownPending then s
  else checkForGracefulExit { s with
    serverStopped := true, shutdownPending := true,
    shutdownReason := some reason }

/-- The receipt half of `trackRequest`: count the request and cancel a
pending idle timer. -/
def trackRequest (s : ServerState) : ServerState :=
  { s with activeRequests := s.activeRequests + 1, idlePending := false }

/-- The cleanup closure returned by `trackRequest` (run in the fetch
handler's `finally`): uncount the request; when shutdown is draining and
this was the last request, exit via `checkForGracefulExit`; when the
server went idle outside shutdown, arm the idle timer. -/
def finishRequest (s : ServerState) : ServerState :=
  let s := { s with activeRequests := s.activeRequests - 1 }
  if s.shutdownPending ∧ s.activeRequests = 0 then checkForGracefulExit s
  else if s.activeRequests = 0 ∧ ¬ s.shutdownPending ∧ idleTimeoutSecs > 0 then
    { s with idlePending := true }
  else s

/-- Events of the serving/shutdown event loop: a termination signal, the
grace-period timer firing, the scheduled 100 ms re-check firing, the
idle timer firing, and a request starting or finishing. -/
inductive Ev where
  | signal (reason : String)
  | graceTimerFires
  | checkTimerFires
  | idleTimerFires
  | requestStart
  | requestFinish
deriving Repr, DecidableEq

/-- Event-loop semantics of the shutdown coordinator. -/
def evStep (s : ServerState) : Ev → ServerState
  | .signal r => gracefulShutdown r s
  | .graceTimerFires => { s with exited := some 1 }
  | .checkTimerFires => checkForGracefulExit { s with checkPending := false }
  | .idleTimerFires => gracefulShutdown "IDLE" { s with idlePending := false }
  | .requestStart => trackRequest s
  | .requestFinish => finishRequest s

/-- When an event can occur: timers fire only while armed, requests can
only finish while some are active, and nothing happens after the process
exited. -/
def evValid (s : ServerState) : Ev → Prop
  | .graceTimerFires => s.shutdownPending = true ∧ s.exited = none
  | .checkTimerFires => s.checkPending = true ∧ s.exited = none
  | .idleTimerFires => s.idlePending = true ∧ s.exited = none
  | .requestFinish => 0 < s.activeRequests ∧ s.exited = none
  | _ => s.exited = none

end Server

namespace SpecSide

open Validation

/-- Spec-side predicate, written from the specification's words: an
asset "passed all terminal checks (existence/readability and
is-a-regular-file)". -/
def passedTerminalChecks (fs : FS) (a : ClientAsset) : Bool :=
  fs.access a.filePath &&
    (match fs.stat a.filePath with
      | some st => st.isFile
      | none => false)

/-- Spec-side quantity, written from the specification's words for
comparison with the implementation: "totalSize is the sum of the sizes
of exactly those assets that passed all terminal checks". -/
def claimedTotalSize (fs : FS) (assets : List ClientAsset) : Nat :=
  ((assets.filter (passedTerminalChecks fs)).map (fun a =>
    match fs.stat a.filePath with
    | some st => st.size
    | none => 0)).sum

end SpecSide

namespace Inputs

open Validation Server

/-- Filesystem in which every path is a readable regular 5-byte file. -/
def fsAllFiles : FS := ⟨fun _ => true, fun _ => some ⟨5, true⟩⟩

/-- Filesystem in which no path exists. -/
def fsNothing : FS := ⟨fun _ => false, fun _ => none⟩

/-- An asset with a blocked `.exe` extension whose file path does not
contain its route path as a substring. -/
def exeAsset : ClientAsset :=
  { filePath := "f1.exe", routePath := "/r.exe", varName := "v" }

/-- A well-behaved png asset. -/
def pngAsset : ClientAsset :=
  { filePath := "/c/ok.png", routePath := "/ok.png", varName := "w" }

/-- A disk probe that finds nothing. -/
def noDisk : String → String → Bool := fun _ _ => false

/-- The post-shutdown state used to exercise the second-signal no-op:
two requests draining, grace timer armed. -/
def drainingState : ServerState :=
  { activeRequests := 2, shutdownPending := true, serverStopped := true,
    shutdownReason := some "SIGTERM", checkPending := true }

/-- A draining shutdown state with exactly one request left. -/
def lastDrain : ServerState :=
  { activeRequests := 1, shutdownPending := true, serverStopped := true,
    shutdownReason := some "SIGTERM" }

end Inputs
namespace Validation

lemma processAsset_res_errors (fs : FS) (options : ValidationOptions)
    (acc : LoopAcc) (a : ClientAsset) :
    (processAsset fs options acc a).res.errors =
      acc.res.errors ++ (validateAsset fs a options).errors := by
  simp only [processAsset]
  split <;> rfl

lemma processAsset_inv (fs : FS) (options : ValidationOptions)
    (acc : LoopAcc) (a : ClientAsset)
    (h : acc.res.isValid = acc.res.errors.isEmpty) :
    (processAsset fs options acc a).res.isValid =
      (processAsset fs options acc a).res.errors.isEmpty := by
  simp only [processAsset]
  split
  case isTrue hne =>
    cases hv : (validateAsset fs a options).errors with
    | nil => exact absurd hv hne
    | cons e es => cases acc.res.errors <;> simp [hv]
  case isFalse hne =>
    rw [not_not] at hne
    simp [hne, h]

lemma processAsset_res_totalSize (fs : FS) (options : ValidationOptions)
    (acc : LoopAcc) (a : ClientAsset) :
    (processAsset fs options acc a).res.totalSize =
      acc.res.totalSize +
        (if (validateAsset fs a options).errors.isEmpty then
          effectiveSize fs options a else 0) := by
  simp only [processAsset, effectiveSize]
  split
  case isTrue hne =>
    have hf : (validateAsset fs a options).errors.isEmpty = false := by
      simpa [List.isEmpty_iff] using hne
    simp [hf]
  case isFalse hne =>
    rw [not_not] at hne
    simp [hne]


lemma foldl_res_errors (fs : FS) (options : ValidationOptions)
    (assets : List ClientAsset) :
    ∀ acc : LoopAcc,
      (assets.foldl (processAsset fs options) acc).res.errors =
        acc.res.errors ++
          (assets.map (fun a => (validateAsset fs a options).errors)).flatten := by
  induction assets with
  | nil => intro acc; simp
  | cons a as ih =>
    intro acc
    simp only [List.foldl_cons, List.map_cons, List.flatten_cons]
    rw [ih, processAsset_res_errors, List.append_assoc]

lemma foldl_inv (fs : FS) (options : ValidationOptions)
    (assets : List ClientAsset) :
    ∀ acc : LoopAcc, acc.res.isValid = acc.res.errors.isEmpty →
      (assets.foldl (processAsset fs options) acc).res.isValid =
        (assets.foldl (processAsset fs options) acc).res.errors.isEmpty := by
  induction assets with
  | nil => intro acc h; simpa using h
  | cons a as ih =>
    intro acc h
    simp only [List.foldl_cons]
    exact ih _ (processAsset_inv fs options acc a h)

lemma foldl_res_totalSize (fs : FS) (options : ValidationOptions)
    (assets : List ClientAsset) :
    ∀ acc : LoopAcc,
      (assets.foldl (processAsset fs options) acc).res.totalSize =
        acc.res.totalSize +
          ((assets.filter (fun a => (validateAsset fs a options).errors.isEmpty)).map
            (effectiveSize fs options)).sum := by
  induction assets with
  | nil => intro acc; simp
  | cons a as ih =>
    intro acc
    simp only [List.foldl_cons, List.filter_cons]
    by_cases h : (validateAsset fs a options).errors.isEmpty
    · simp only [h, if_pos, List.map_cons, List.sum_cons]
      rw [ih, processAsset_res_totalSize]
      simp [h, Nat.add_assoc]
    · have hf : (validateAsset fs a options).errors.isEmpty = false := by
        simpa using h
      simp only [hf, Bool.false_eq_true, if_neg, not_false_iff]
      rw [ih, processAsset_res_totalSize]
      simp [hf]

lemma finalizeResult_totalSize (options : ValidationOptions) (acc : LoopAcc) :
    (finalizeResult options acc).totalSize = acc.res.totalSize := by
  simp only [finalizeResult]
  split <;> split <;> split <;> rfl

lemma finalizeResult_isValid_eq (options : ValidationOptions) (acc : LoopAcc) :
    (finalizeResult options acc).isValid =
      (if acc.res.totalSize > options.maxTotalSize then false
        else acc.res.isValid) := by
  simp only [finalizeResult]
  split <;> split <;> split <;> simp_all

lemma finalizeResult_errors_eq (options : ValidationOptions) (acc : LoopAcc) :
    (finalizeResult options acc).errors =
      (if acc.res.totalSize > options.maxTotalSize then
        acc.res.errors ++
          ["Total asset size exceeds limit: " ++ formatBytes acc.res.totalSize ++
            " (max: " ++ formatBytes options.maxTotalSize ++ ")"]
      else acc.res.errors) := by
  simp only [finalizeResult]
  split <;> split <;> split <;> simp_all

lemma finalizeResult_isValid (options : ValidationOptions) (acc : LoopAcc)
    (h : acc.res.isValid = acc.res.errors.isEmpty) :
    (finalizeResult options acc).isValid =
      (finalizeResult options acc).errors.isEmpty := by
  rw [finalizeResult_isValid_eq, finalizeResult_errors_eq]
  by_cases h1 : acc.res.totalSize > options.maxTotalSize
  · rw [if_pos h1, if_pos h1]
    cases acc.res.errors <;> simp
  · rw [if_neg h1, if_neg h1]
    exact h

lemma finalizeResult_errors_ne (options : ValidationOptions) (acc : LoopAcc)
    (h : acc.res.errors ≠ []) :
    (finalizeResult options acc).errors ≠ [] := by
  rw [finalizeResult_errors_eq]
  by_cases h1 : acc.res.totalSize > options.maxTotalSize
  · rw [if_pos h1]
    simp
  · rw [if_neg h1]
    exact h

lemma validateAssets_isValid_aux (fs : FS) (assets : List ClientAsset)
    (options : ValidationOptions) :
    (validateAssets fs assets options).isValid =
      (validateAssets fs assets options).errors.isEmpty := by
  unfold validateAssets loopResult
  exact finalizeResult_isValid _ _ (foldl_inv _ _ _ _ rfl)

lemma validateAssets_totalSize_aux (fs : FS) (assets : List ClientAsset)
    (options : ValidationOptions) :
    (validateAssets fs assets options).totalSize =
      ((assets.filter (fun a => (validateAsset fs a options).errors.isEmpty)).map
        (effectiveSize fs options)).sum := by
  unfold validateAssets loopResult
  rw [finalizeResult_totalSize, foldl_res_totalSize]
  simp

lemma validateAssets_errors_ne_of_mem (fs : FS) (assets : List ClientAsset)
    (options : ValidationOptions) (a : ClientAsset) (hmem : a ∈ assets)
    (ha : (validateAsset fs a options).errors ≠ []) :
    (validateAssets fs assets options).errors ≠ [] := by
  unfold validateAssets loopResult
  apply finalizeResult_errors_ne
  rw [foldl_res_errors]
  simp only [List.nil_append]
  intro hfl
  rw [List.flatten_eq_nil_iff] at hfl
  exact ha (hfl _ (List.mem_map_of_mem _ hmem))

lemma validateAssets_not_valid_of_mem (fs : FS) (assets : List ClientAsset)
    (options : ValidationOptions) (a : ClientAsset) (hmem : a ∈ assets)
    (ha : (validateAsset fs a options).errors ≠ []) :
    (validateAssets fs assets options).isValid = false := by
  have h1 := validateAssets_isValid_aux fs assets options
  have h2 := validateAssets_errors_ne_of_mem fs assets options a hmem ha
  rw [h1]
  cases herr : (validateAssets fs assets options).errors with
  | nil => exact absurd herr h2
  | cons e es => simp

lemma adaptAssetsStep_eq_none (fs : FS) (assets : List ClientAsset)
    (options : ValidationOptions) (a : ClientAsset) (hmem : a ∈ assets)
    (ha : (validateAsset fs a options).errors ≠ []) :
    Adapt.adaptAssetsStep fs assets options false = none := by
  unfold Adapt.adaptAssetsStep
  simp [validateAssets_not_valid_of_mem fs assets options a hmem ha]

end Validation

namespace Validation

lemma blocked_msg_mem (fs : FS) (a : ClientAsset) (options : ValidationOptions)
    (st : FileStats)
    (hacc : fs.access a.filePath = true)
    (hstat : fs.stat a.filePath = some st)
    (hfile : st.isFile = true)
    (hblocked : options.blockedExtensions.contains
      (StrAux.lowerStr (NodePath.extname a.filePath)) = true) :
    ("Blocked file type: " ++ a.routePath ++ " (" ++
      StrAux.lowerStr (NodePath.extname a.filePath) ++ ")") ∈
      (validateAsset fs a options).errors := by
  simp only [validateAsset, hacc, hstat, hfile]
  simp only [not_true, ite_false, if_false, Bool.not_eq_true, reduceCtorEq]
  apply List.mem_append_right
  have hmem : StrAux.lowerStr (NodePath.extname a.filePath) ∈
      options.blockedExtensions := by simpa using hblocked
  split <;> simp [analyzeAssetType, hmem]

lemma validateAsset_errors_ne_of_blocked (fs : FS) (a : ClientAsset)
    (options : ValidationOptions)
    (hblocked : options.blockedExtensions.contains
      (StrAux.lowerStr (NodePath.extname a.filePath)) = true) :
    (validateAsset fs a options).errors ≠ [] := by
  by_cases hacc : fs.access a.filePath = true
  · cases hstat : fs.stat a.filePath with
    | none => simp [validateAsset, hacc, hstat]
    | some st =>
      by_cases hfile : st.isFile = true
      · exact List.ne_nil_of_mem
          (blocked_msg_mem fs a options st hacc hstat hfile hblocked)
      · simp [validateAsset, hacc, hstat, hfile]
  · simp [validateAsset, hacc]

end Validation

open Validation in
/-- C1: for every asset list and validation options, the result of
`validateAssets` has `isValid` true exactly when its `errors` list is
empty — no per-asset or aggregate error was produced at any stage. -/
theorem validateAssets_isValid_iff_errors_empty (fs : FS)
    (assets : List ClientAsset) (options : ValidationOptions) :
    (validateAssets fs assets options).isValid =
      (validateAssets fs assets options).errors.isEmpty :=
  validateAssets_isValid_aux fs assets options

open Validation SpecSide Inputs in
/-- C2 counterexample: an existing, readable, regular 5-byte file with a
blocked `.exe` extension passes all terminal checks, yet `validateAssets`
reports `totalSize = 0`, not the claimed sum 5 over terminal-check
survivors. -/
theorem validateAssets_totalSize_spec_counterexample :
    passedTerminalChecks fsAllFiles exeAsset = true ∧
    claimedTotalSize fsAllFiles [exeAsset] = 5 ∧
    (validateAssets fsAllFiles [exeAsset] DEFAULT_VALIDATION_OPTIONS).totalSize = 0 ∧
    (validateAssets fsAllFiles [exeAsset] DEFAULT_VALIDATION_OPTIONS).totalSize ≠
      claimedTotalSize fsAllFiles [exeAsset] := by
  refine ⟨rfl, rfl, ?_, ?_⟩ <;> decide

open Validation Inputs in
/-- C2 (amended): `totalSize` is the sum of the effective sizes of
exactly those assets whose per-asset validation produced no error at
all (terminal or non-terminal), and when any asset produced an error
the build aborts before manifest generation, so a rejected asset
contributes to neither `totalSize` nor a generated manifest. -/
theorem validateAssets_totalSize_excludes_erroring_assets (fs : FS)
    (assets : List ClientAsset) (options : ValidationOptions) :
    (validateAssets fs assets options).totalSize =
      ((assets.filter (fun a => (validateAsset fs a options).errors.isEmpty)).map
        (effectiveSize fs options)).sum ∧
    ∀ a ∈ assets, (validateAsset fs a options).errors ≠ [] →
      Adapt.adaptAssetsStep fs assets options false = none :=
  ⟨validateAssets_totalSize_aux fs assets options,
    fun a hmem ha => adaptAssetsStep_eq_none fs assets options a hmem ha⟩

open Validation Inputs in
/-- C2 witness: the amended theorem applied to a two-asset list with one
blocked asset. -/
theorem validateAssets_totalSize_excludes_erroring_assets_witness :
    (validateAssets fsAllFiles [exeAsset, pngAsset]
        DEFAULT_VALIDATION_OPTIONS).totalSize =
      (([exeAsset, pngAsset].filter (fun a =>
        (validateAsset fsAllFiles a DEFAULT_VALIDATION_OPTIONS).errors.isEmpty)).map
        (effectiveSize fsAllFiles DEFAULT_VALIDATION_OPTIONS)).sum ∧
    Adapt.adaptAssetsStep fsAllFiles [exeAsset, pngAsset]
      DEFAULT_VALIDATION_OPTIONS false = none :=
  ⟨(validateAssets_totalSize_excludes_erroring_assets fsAllFiles
      [exeAsset, pngAsset] DEFAULT_VALIDATION_OPTIONS).1,
    (validateAssets_totalSize_excludes_erroring_assets fsAllFiles
      [exeAsset, pngAsset] DEFAULT_VALIDATION_OPTIONS).2
      exeAsset (by simp) (by decide)⟩

open Validation SpecSide Inputs in
/-- C6 counterexample: a blocked-extension asset whose file is missing
produces only the file-not-found error naming the file path `f1.exe`;
no error message mentions the asset's route path `/r.exe`. -/
theorem blocked_asset_error_naming_counterexample :
    DEFAULT_VALIDATION_OPTIONS.blockedExtensions.contains
      (StrAux.lowerStr (NodePath.extname exeAsset.filePath)) = true ∧
    (validateAsset fsNothing exeAsset DEFAULT_VALIDATION_OPTIONS).errors =
      ["Asset file not found: f1.exe"] ∧
    ((validateAsset fsNothing exeAsset DEFAULT_VALIDATION_OPTIONS).errors.all
      (fun e => ! StrAux.containsStr e exeAsset.routePath)) = true := by
  refine ⟨?_, ?_, ?_⟩ <;> decide

open Validation SpecSide Inputs in
/-- C6 (amended): a blocked-extension asset always produces at least one
validation error; the specific blocked-file-type error naming the
asset's route path is produced whenever the asset passes the terminal
existence/readability/regular-file checks; and such an asset is always
excluded from the summed `totalSize` set and from any generated
manifest (validation failure aborts the build before generation). -/
theorem blocked_extension_always_error_and_excluded (fs : FS)
    (assets : List ClientAsset) (options : ValidationOptions)
    (a : ClientAsset)
    (hblocked : options.blockedExtensions.contains
      (StrAux.lowerStr (NodePath.extname a.filePath)) = true) :
    (validateAsset fs a options).errors ≠ [] ∧
    (passedTerminalChecks fs a = true →
      ("Blocked file type: " ++ a.routePath ++ " (" ++
        StrAux.lowerStr (NodePath.extname a.filePath) ++ ")") ∈
        (validateAsset fs a options).errors) ∧
    (a ∈ assets →
      a ∉ assets.filter (fun x => (validateAsset fs x options).errors.isEmpty) ∧
      (validateAssets fs assets options).isValid = false ∧
      Adapt.adaptAssetsStep fs assets options false = none) := by
  have hne := validateAsset_errors_ne_of_blocked fs a options hblocked
  refine ⟨hne, ?_, ?_⟩
  · intro hpass
    simp only [SpecSide.passedTerminalChecks, Bool.and_eq_true] at hpass
    obtain ⟨hacc, hrest⟩ := hpass
    cases hstat : fs.stat a.filePath with
    | none => rw [hstat] at hrest; simp at hrest
    | some st =>
      rw [hstat] at hrest
      exact blocked_msg_mem fs a options st hacc hstat hrest hblocked
  · intro hmem
    refine ⟨?_, ?_, ?_⟩
    · intro hin
      rw [List.mem_filter] at hin
      exact hne (by simpa [List.isEmpty_iff] using hin.2)
    · exact validateAssets_not_valid_of_mem fs assets options a hmem hne
    · exact adaptAssetsStep_eq_none fs assets options a hmem hne

open Validation SpecSide Inputs in
/-- C6 witness: the amended theorem applied to the blocked `.exe` asset
on the all-files filesystem. -/
theorem blocked_extension_always_error_and_excluded_witness :
    (validateAsset fsAllFiles exeAsset DEFAULT_VALIDATION_OPTIONS).errors ≠ [] ∧
    ("Blocked file type: " ++ exeAsset.routePath ++ " (" ++
      StrAux.lowerStr (NodePath.extname exeAsset.filePath) ++ ")") ∈
      (validateAsset fsAllFiles exeAsset DEFAULT_VALIDATION_OPTIONS).errors ∧
    Adapt.adaptAssetsStep fsAllFiles [exeAsset] DEFAULT_VALIDATION_OPTIONS
      false = none := by
  have h := blocked_extension_always_error_and_excluded fsAllFiles [exeAsset]
    DEFAULT_VALIDATION_OPTIONS exeAsset (by decide)
  exact ⟨h.1, h.2.1 (by decide), (h.2.2 (by simp)).2.2⟩

open Server Inputs in
/-- C3 counterexample: when decoding the pathname fails (malformed
escape `%zz`), `getFile` does not report "no match": it falls back to
the raw pathname and can still resolve an embedded asset. -/
theorem getFile_decode_failure_counterexample :
    decodeURIComponentM "/a%zz" = none ∧
    getFile [("/a%zz", "payload0")] noDisk "/a%zz" =
      some (FileRef.embedded "payload0") := by
  refine ⟨?_, ?_⟩ <;> decide

open Server in
/-- C3 (amended): when the pathname decodes and the decoded form
contains a traversal marker, `getFile` reports no match; when decoding
fails, `getFile` does not throw but continues resolution on the raw
pathname with the traversal check skipped. -/
theorem getFile_traversal_no_match_decode_fallback
    (assetMap : List (String × String)) (diskExists : String → String → Bool)
    (pathname : String) :
    (∀ d, decodeURIComponentM pathname = some d →
      (StrAux.containsStr d "../" || StrAux.containsStr d "..\\") = true →
      getFile assetMap diskExists pathname = none) ∧
    (decodeURIComponentM pathname = none →
      getFile assetMap diskExists pathname =
        resolveDecoded assetMap diskExists pathname) := by
  constructor
  · intro d hdec htrav
    unfold getFile
    rw [hdec]
    simp [htrav]
  · intro hdec
    unfold getFile
    rw [hdec]

open Server Inputs in
/-- C3 witness: a traversal attempt hidden behind an escaped slash is
rejected even though the target is present in the map, and the
malformed pathname of the counterexample resolves via the fallback. -/
theorem getFile_traversal_no_match_decode_fallback_witness :
    getFile [("/../secret", "S")] noDisk "/..%2Fsecret" = none ∧
    getFile [("/a%zz", "payload0")] noDisk "/a%zz" =
      resolveDecoded [("/a%zz", "payload0")] noDisk "/a%zz" :=
  ⟨(getFile_traversal_no_match_decode_fallback [("/../secret", "S")] noDisk
      "/..%2Fsecret").1 "/../secret" (by decide) (by decide),
    (getFile_traversal_no_match_decode_fallback [("/a%zz", "payload0")] noDisk
      "/a%zz").2 (by decide)⟩

open Server Inputs in
/-- C4 counterexample: with the root path prerendered but the index
document resolvable neither from the embedded map nor from disk, the
request for the root path falls through to the dynamic SvelteKit
handler. -/
theorem root_prerendered_counterexample :
    ("/" ∈ (["/"] : List String)) ∧
    getFile [] noDisk "/index.html" = none ∧
    fetchRoute ["/"] [] noDisk "/" = ServeOutcome.dynamic := by
  refine ⟨by simp, by decide, by decide⟩

open Server in
/-- C4 (amended): when the root path is a known prerendered route and
its index document `/index.html` is resolvable, the router serves that
document and the dynamic handler is never invoked. -/
theorem root_resolves_to_index (prerenderedRoutes : List String)
    (assetMap : List (String × String)) (diskExists : String → String → Bool)
    (f : FileRef)
    (hpre : prerenderedRoutes.contains "/" = true)
    (hidx : getFile assetMap diskExists "/index.html" = some f) :
    staticRespond prerenderedRoutes assetMap diskExists "/" = some f ∧
    fetchRoute prerenderedRoutes assetMap diskExists "/" =
      ServeOutcome.staticFile f := by
  have h1 : staticRespond prerenderedRoutes assetMap diskExists "/" = some f := by
    unfold staticRespond htmlPathFor
    have hpre2 : "/" ∈ prerenderedRoutes := by simpa using hpre
    simp [hpre2, hidx]
  exact ⟨h1, by unfold fetchRoute; rw [h1]⟩

open Server Inputs in
/-- C4 witness: the amended theorem on a build embedding an index
document for the prerendered root route. -/
theorem root_resolves_to_index_witness :
    staticRespond ["/"] [("/index.html", "IDX")] noDisk "/" =
      some (FileRef.embedded "IDX") ∧
    fetchRoute ["/"] [("/index.html", "IDX")] noDisk "/" =
      ServeOutcome.staticFile (FileRef.embedded "IDX") :=
  root_resolves_to_index ["/"] [("/index.html", "IDX")] noDisk
    (FileRef.embedded "IDX") (by decide) (by decide)

open Server in
/-- C5: a termination signal with zero active requests exits
successfully at once (within the first polling interval); a second
signal during an in-progress shutdown changes nothing; and during
shutdown, any event can only produce a successful exit with zero
remaining requests, while a forced exit (code 1) can only come from the
grace-period timer. -/
theorem shutdown_coordinator_properties (s : ServerState) (r : String) :
    (s.exited = none → s.shutdownPending = false → s.activeRequests = 0 →
      (gracefulShutdown r s).exited = some 0) ∧
    (s.shutdownPending = true → gracefulShutdown r s = s) ∧
    (∀ e, evValid s e → s.shutdownPending = true →
      ((evStep s e).exited = some 0 → (evStep s e).activeRequests = 0) ∧
      ((evStep s e).exited = some 1 → e = Ev.graceTimerFires)) := by
  refine ⟨?_, ?_, ?_⟩
  · intro _ hsp hact
    simp [gracefulShutdown, hsp, checkForGracefulExit, hact]
  · intro hsp
    simp [gracefulShutdown, hsp]
  · intro e hv hsp
    cases e with
    | signal r2 =>
      have hexn : s.exited = none := hv
      have hstep : evStep s (Ev.signal r2) = s := by
        simp [evStep, gracefulShutdown, hsp]
      rw [hstep]
      constructor <;> intro h <;> rw [hexn] at h <;> simp at h
    | graceTimerFires =>
      constructor
      · intro h; simp [evStep] at h
      · intro _; rfl
    | checkTimerFires =>
      have hexn : s.exited = none := hv.2
      by_cases hact : s.activeRequests = 0
      · constructor
        · intro _; simp [evStep, checkForGracefulExit, hact]
        · intro h; simp [evStep, checkForGracefulExit, hact] at h
      · constructor
        · intro h; simp [evStep, checkForGracefulExit, hact, hexn] at h
        · intro h; simp [evStep, checkForGracefulExit, hact, hexn] at h
    | idleTimerFires =>
      have hexn : s.exited = none := hv.2
      constructor <;> intro h <;>
        simp [evStep, gracefulShutdown, hsp, hexn] at h
    | requestStart =>
      have hexn : s.exited = none := hv
      constructor <;> intro h <;> simp [evStep, trackRequest, hexn] at h
    | requestFinish =>
      have hexn : s.exited = none := hv.2
      by_cases hact : s.activeRequests - 1 = 0
      · constructor
        · intro _
          simp [evStep, finishRequest, hsp, hact, checkForGracefulExit]
        · intro h
          simp [evStep, finishRequest, hsp, hact, checkForGracefulExit] at h
      · constructor
        · intro h
          simp [evStep, finishRequest, hsp, hact, hexn] at h
        · intro h
          simp [evStep, finishRequest, hsp, hact, hexn] at h

open Server Inputs in
/-- C5 witness: instances of all three conjuncts — an idle server exits
immediately on SIGTERM; a second signal leaves the draining state
untouched; and completing the last in-flight request during shutdown
exits with the counter at zero. -/
theorem shutdown_coordinator_properties_witness :
    (gracefulShutdown "SIGTERM" ({} : ServerState)).exited = some 0 ∧
    gracefulShutdown "SIGINT" drainingState = drainingState ∧
    (evStep lastDrain Ev.requestFinish).activeRequests = 0 :=
  ⟨(shutdown_coordinator_properties {} "SIGTERM").1 rfl rfl rfl,
    (shutdown_coordinator_properties drainingState "SIGINT").2.1 rfl,
    ((shutdown_coordinator_properties lastDrain "SIGTERM").2.2
      Ev.requestFinish ⟨by decide, rfl⟩ rfl).1 (by decide)⟩

open Server in
/-- C10: the idle-shutdown behavior the spec omits — the idle delay is
30 seconds; finishing the last request outside shutdown arms the idle
timer without exiting; any request receipt cancels a pending idle
timer; and the idle timer firing on an idle server runs the same
graceful-shutdown path with reason IDLE and exits successfully. -/
theorem idle_shutdown_properties (s : ServerState) :
    idleTimeoutSecs = 30 ∧
    (s.exited = none → s.shutdownPending = false → s.activeRequests = 1 →
      (finishRequest s).idlePending = true ∧ (finishRequest s).exited = none) ∧
    ((trackRequest s).idlePending = false) ∧
    (s.shutdownPending = false → s.activeRequests = 0 →
      (evStep s Ev.idleTimerFires).exited = some 0 ∧
      (evStep s Ev.idleTimerFires).shutdownReason = some "IDLE") := by
  refine ⟨rfl, ?_, rfl, ?_⟩
  · intro hex hsp hact
    simp [finishRequest, hsp, hact, idleTimeoutSecs, hex]
  · intro hsp hact
    simp [evStep, gracefulShutdown, hsp, checkForGracefulExit, hact]

open Server Inputs in
/-- C10 witness: the idle-timer lifecycle on concrete states. -/
theorem idle_shutdown_properties_witness :
    (finishRequest ({ activeRequests := 1 } : ServerState)).idlePending = true ∧
    (trackRequest ({ idlePending := true } : ServerState)).idlePending = false ∧
    (evStep ({ idlePending := true } : ServerState) Ev.idleTimerFires).exited =
      some 0 ∧
    (evStep ({ idlePending := true } : ServerState)
      Ev.idleTimerFires).shutdownReason = some "IDLE" :=
  ⟨((idle_shutdown_properties { activeRequests := 1 }).2.1 rfl rfl rfl).1,
    (idle_shutdown_properties { idlePending := true }).2.2.1,
    ((idle_shutdown_properties { idlePending := true }).2.2.2 rfl rfl).1,
    ((idle_shutdown_properties { idlePending := true }).2.2.2 rfl rfl).2⟩

open Reporter in
/-- C8: the step table carries weights [1,3,1,1,2,4,1] summing to 13,
and after starting and completing the first two steps in order the live
weighted progress is round(4/13 x 100) = 31. -/
theorem progress_after_first_two_steps :
    (steps.map StepInfo.weight) = [1, 3, 1, 1, 2, 4, 1] ∧
    (steps.map StepInfo.weight).sum = 13 ∧
    calculateProgress (completeStep (startStep (completeStep (startStep
      initialMetrics "cleanup") "cleanup") "sveltekit") "sveltekit") = 31 := by
  refine ⟨?_, ?_, ?_⟩ <;> decide

open Validation AssetsGen in
/-- C9: manifest generation is a pure function of the ordered asset
list — two runs on the same ordered input produce byte-identical
output. -/
theorem generateAssetImports_deterministic (a b : List ClientAsset)
    (h : a = b) : generateAssetImports a = generateAssetImports b := by
  rw [h]

open Validation AssetsGen Inputs in
/-- C9 witness: two runs on a concrete one-asset list agree. -/
theorem generateAssetImports_deterministic_witness :
    generateAssetImports [pngAsset] = generateAssetImports [pngAsset] :=
  generateAssetImports_deterministic [pngAsset] [pngAsset] rfl

set_option maxRecDepth 100000 in
/-- C7 counterexample: `/dir87/img.png` and `/dir530/img.png` share the
basename `img.png`, normalize to different paths, yet their 4-hex-digit
md5 path-hash prefixes collide (`b024`), so `generateVarName` produces
the same symbolic name `img_PNG_b024` for both. -/
theorem generateVarName_collision_counterexample :
    NodePath.basename "/dir87/img.png" = NodePath.basename "/dir530/img.png" ∧
    NodePath.normalize "/dir87/img.png" ≠ NodePath.normalize "/dir530/img.png" ∧
    AssetsGen.generateVarName "/dir87/img.png" =
      AssetsGen.generateVarName "/dir530/img.png" := by
  refine ⟨?_, ?_, ?_⟩ <;> decide

/-- Each digest word serializes to four bytes. -/
lemma digestOfState_length (st : Nat × Nat × Nat × Nat) :
    (MD5.digestOfState st).length = 16 := by
  simp [MD5.digestOfState, MD5.wordLE]

/-- Hex rendering doubles the byte count. -/
lemma flatten_map_byteHex_length (l : List Nat) :
    ((l.map MD5.byteHex).flatten).length = 2 * l.length := by
  induction l with
  | nil => rfl
  | cons b bs ih =>
    simp [MD5.byteHex, ih] at *
    omega

/-- An md5 hex digest always has 32 characters. -/
lemma md5Hex_data_length (s : String) : (MD5.md5Hex s).data.length = 32 := by
  show (((MD5.md5Bytes (MD5.strBytes s)).map MD5.byteHex).flatten).length = 32
  rw [flatten_map_byteHex_length, MD5.md5Bytes, digestOfState_length]

/-- The path hash always has exactly 4 characters. -/
lemma pathHash_data_length (p : String) :
    (AssetsGen.pathHash p).data.length = 4 := by
  show ((MD5.md5Hex (AssetsGen.normalizedPath p)).data.take 4).length = 4
  rw [List.length_take, md5Hex_data_length]
  decide

/-- C7 (amended): the symbolic name ends in the 4-hex-character md5
path hash, so any two paths whose hash prefixes differ — same basename
or not — receive different symbolic names; the guarantee is only
hash-collision resistance, not unconditional distinctness. -/
theorem generateVarName_distinct_of_hash_distinct (p1 p2 : String)
    (h : AssetsGen.pathHash p1 ≠ AssetsGen.pathHash p2) :
    AssetsGen.generateVarName p1 ≠ AssetsGen.generateVarName p2 := by
  intro heq
  apply h
  have hd : (AssetsGen.varNameBase p1).data ++ (AssetsGen.pathHash p1).data =
      (AssetsGen.varNameBase p2).data ++ (AssetsGen.pathHash p2).data := by
    have h2 := congrArg String.data heq
    simpa [AssetsGen.generateVarName, String.data_append] using h2
  have hlen : (AssetsGen.pathHash p1).data.length =
      (AssetsGen.pathHash p2).data.length := by
    rw [pathHash_data_length, pathHash_data_length]
  exact String.ext (List.append_inj' hd hlen).2

set_option maxRecDepth 100000 in
/-- C7 witness: two single-segment paths with distinct hash prefixes
get distinct symbolic names. -/
theorem generateVarName_distinct_of_hash_distinct_witness :
    AssetsGen.generateVarName "/a.png" ≠ AssetsGen.generateVarName "/b.png" :=
  generateVarName_distinct_of_hash_distinct "/a.png" "/b.png" (by decide)
